import Mathlib

/-!
Verification development for a small real-time chat relay (Node.js
`server/websocket.js`, `server/app.js`, `server/db.js`).

The JavaScript source is embedded shallowly:
- persisted messages and wire frames become inert Lean structures;
- the module-level `rooms` / `clients` maps and the SQLite message table
  become a `RelayState` record of association lists;
- each WebSocket handler becomes a pure state transformer returning the
  mutated state, the list of frames written to sockets, and a flag
  recording whether the handler threw (a rejected `saveMessage` promise
  or a `TypeError` on a missing client entry);
- JavaScript truthiness tests (`!roomId`, `message.timestamp ||
  Date.now()`, `clientInfo.userId || message.senderId`) are modelled by
  explicit helpers over `Option` that treat the empty string and the
  number `0` as falsy, exactly as `!x` / `x || y` do in JS.
-/

namespace Chat

/-- String literals used by the server (kept as named constants). -/
def welcomeText : String := "连接成功"

def errRoomSenderRequired : String := "roomId and senderId are required"

def errNotInRoom : String := "Not in a room. Please join a room first."

def errContentRequired : String := "Message content is required"

def errInvalidFormat : String := "Invalid message format"

def joinedSuffix : String := " 加入了聊天室"

def leftSuffix : String := " 离开了聊天室"

def systemSender : String := "system"

def unknownUser : String := "Unknown user"

def defaultRoom : String := "default_room"

/-- JS truthiness of an optional string: `undefined`/`null` and `""` are falsy. -/
def truthyS : Option String → Bool
  | none => false
  | some s => s ≠ ""

/-- JS truthiness of an optional number: `undefined`/`null` and `0` are falsy. -/
def truthyN : Option Nat → Bool
  | none => false
  | some n => n ≠ 0

/-- JS `a || b` on optional strings: keeps `a` when truthy, else `b`. -/
def jsOrS (a b : Option String) : Option String :=
  if truthyS a then a else b

/-- JS `t || d` where `d` is a concrete number (`message.timestamp || Date.now()`). -/
def jsOrN (t : Option Nat) (d : Nat) : Nat :=
  match t with
  | none => d
  | some v => if v ≠ 0 then v else d

/-- JS string interpolation of a possibly-null value: `${x}` prints `null`. -/
def jsShow (a : Option String) : String :=
  match a with
  | none => "null"
  | some s => s

/-- JS `${x || d}`: the default replaces falsy values. -/
def jsShowOr (a : Option String) (d : String) : String :=
  match a with
  | none => d
  | some s => if s = "" then d else s

/-- A message as persisted in the `messages` table and broadcast as a frame
(`type`, `room_id`, `sender_id`, `timestamp`, `content` plus media columns).
The store-assigned `id` / `created_at` columns play no role in any claim and
are not tracked; a `Msg` in `RelayState.store` is one table row. -/
structure Msg where
  type : String
  roomId : String
  senderId : Option String
  timestamp : Nat
  content : Option String
  fileName : Option String := none
  fileSize : Option Nat := none
  duration : Option Nat := none
  thumbnail : Option String := none
deriving Repr, DecidableEq

/-- An inbound JSON frame after `JSON.parse`: every field other than `type`
may be absent. -/
structure InMsg where
  type : String
  roomId : Option String := none
  senderId : Option String := none
  timestamp : Option Nat := none
  content : Option String := none
  fileName : Option String := none
  size : Option Nat := none
  duration : Option Nat := none
  thumbnail : Option String := none
deriving Repr, DecidableEq

/-- The per-connection record stored in the `clients` map. -/
structure ClientInfo where
  id : String
  roomId : Option String
  userId : Option String
  connectedAt : Nat
deriving Repr, DecidableEq

/-- Server-to-client frames. `msg` is a normalized chat/presence message
serialized by `broadcastToRoom`; `system` is the connection welcome. -/
inductive Frame where
  | system (content : String) (timestamp : Nat)
  | joined (roomId userId : String) (timestamp : Nat)
  | history (messages : List Msg)
  | error (content : String) (timestamp : Nat)
  | pong (timestamp : Nat)
  | msg (m : Msg)
deriving Repr, DecidableEq

/-- One `ws.send`: the target connection (identified by a `Nat`) and the frame. -/
abbrev Send := Nat × Frame

/-- The process-wide mutable state of `websocket.js` plus the database:
`rooms` is the `Map roomId → Set ws` (member lists in insertion order),
`clients` the `Map ws → clientInfo`, `openSet` the connections whose
`readyState === OPEN`, and `store` the `messages` table in insertion order. -/
structure RelayState where
  rooms : List (String × List Nat)
  clients : List (Nat × ClientInfo)
  openSet : List Nat
  store : List Msg
deriving Repr, DecidableEq

/-- `clients.get(ws)`. -/
def lookupClient (s : RelayState) (ws : Nat) : Option ClientInfo :=
  (s.clients.find? (fun p => p.1 = ws)).map (fun p => p.2)

/-- `rooms.get(roomId)`. -/
def lookupRoom (s : RelayState) (roomId : String) : Option (List Nat) :=
  (s.rooms.find? (fun p => p.1 = roomId)).map (fun p => p.2)

/-- `clients.set(ws, info)`: replace the binding if present, else append. -/
def setClientList (cs : List (Nat × ClientInfo)) (ws : Nat) (info : ClientInfo) :
    List (Nat × ClientInfo) :=
  if cs.any (fun p => p.1 = ws) then
    cs.map (fun p => if p.1 = ws then (ws, info) else p)
  else cs ++ [(ws, info)]

def setClient (ws : Nat) (info : ClientInfo) (s : RelayState) : RelayState :=
  { s with clients := setClientList s.clients ws info }

/-- `rooms.get(roomId).add(ws)` with `rooms.set(roomId, new Set())` when the
room is absent; a JS `Set` ignores re-insertion of a present element. -/
def addToRoom (roomId : String) (ws : Nat) (s : RelayState) : RelayState :=
  match lookupRoom s roomId with
  | none => { s with rooms := s.rooms ++ [(roomId, [ws])] }
  | some members =>
      if ws ∈ members then s
      else
        { s with
          rooms := s.rooms.map (fun p =>
            if p.1 = roomId then (p.1, p.2 ++ [ws]) else p) }

/-- `leaveRoom(ws, roomId)`: delete `ws` from the room set, drop the room when
it empties, and null the client's `roomId`. -/
def leaveRoom (ws : Nat) (roomId : String) (s : RelayState) : RelayState :=
  let rooms' :=
    match lookupRoom s roomId with
    | none => s.rooms
    | some members =>
        let remaining := members.erase ws
        if remaining = [] then s.rooms.filter (fun p => p.1 ≠ roomId)
        else s.rooms.map (fun p => if p.1 = roomId then (p.1, remaining) else p)
  { s with
    rooms := rooms'
    clients := s.clients.map (fun p =>
      if p.1 = ws then (p.1, { p.2 with roomId := none }) else p) }

/-- `broadcastToRoom(roomId, message, exclude)`: send the serialized message to
every member other than `exclude` whose socket is open; per-recipient failures
are swallowed and change nothing observable here. -/
def broadcastToRoom (s : RelayState) (roomId : String) (m : Msg)
    (exclude : Option Nat) : List Send :=
  match lookupRoom s roomId with
  | none => []
  | some members =>
      (members.filter (fun c => exclude ≠ some c ∧ c ∈ s.openSet)).map
        (fun c => (c, Frame.msg m))

/-- `sendError(ws, text)`: an error frame, only when the socket is open. -/
def sendError (s : RelayState) (ws : Nat) (text : String) (now : Nat) :
    List Send :=
  if ws ∈ s.openSet then [(ws, Frame.error text now)] else []

/-- `ORDER BY timestamp DESC`: row `a` may precede row `b` when
`b.timestamp ≤ a.timestamp`. -/
def tsGe (a b : Msg) : Prop := b.timestamp ≤ a.timestamp

/-- Chronological order on rows, the order of the `history` payload. -/
def tsLe (a b : Msg) : Prop := a.timestamp ≤ b.timestamp

instance : DecidableRel tsGe := fun a b => Nat.decLe b.timestamp a.timestamp

instance : IsTotal Msg tsGe := ⟨fun a b => Nat.le_total b.timestamp a.timestamp⟩

instance : IsTrans Msg tsGe :=
  ⟨fun _ _ _ h1 h2 => Nat.le_trans h2 h1⟩

/-- `getHistory(roomId, page, size)` of `db.js`:
`SELECT * FROM messages WHERE room_id = ? ORDER BY timestamp DESC
LIMIT size OFFSET (page-1)*size`. -/
def getHistory (store : List Msg) (roomId : String) (page size : Nat) :
    List Msg :=
  ((((store.filter (fun m => m.roomId = roomId)).insertionSort tsGe).drop
    ((page - 1) * size)).take size)

/-- The chronological history payload sent on join: the most recent page of
50, reversed (`history.reverse()`). -/
def joinHistoryPayload (store : List Msg) (roomId : String) : List Msg :=
  (getHistory store roomId 1 50).reverse

/-- The normalization of an inbound chat message in `handleChatMessage`:
`senderId` is `clientInfo.userId || message.senderId` and `timestamp` is
`message.timestamp || Date.now()`. -/
def normalizeChat (info : ClientInfo) (m : InMsg) (now : Nat) : Msg :=
  { type := m.type
    roomId := jsShow info.roomId
    senderId := jsOrS info.userId m.senderId
    timestamp := jsOrN m.timestamp now
    content := m.content
    fileName := m.fileName
    fileSize := m.size
    duration := m.duration
    thumbnail := m.thumbnail }

/-- The presence message built in `handleJoin`. -/
def joinPresence (roomId senderId : String) (now : Nat) : Msg :=
  { type := systemSender
    roomId := roomId
    senderId := some systemSender
    timestamp := now
    content := some (senderId ++ joinedSuffix) }

/-- The presence message built in `handleLeave`. -/
def leavePresence (roomId : String) (userId : Option String) (now : Nat) :
    Msg :=
  { type := systemSender
    roomId := roomId
    senderId := some systemSender
    timestamp := now
    content := some (jsShow userId ++ leftSuffix) }

/-- The presence message built in `handleDisconnect`
(`${clientInfo.userId || 'Unknown user'}`). -/
def disconnectPresence (roomId : String) (userId : Option String)
    (now : Nat) : Msg :=
  { type := systemSender
    roomId := roomId
    senderId := some systemSender
    timestamp := now
    content := some (jsShowOr userId unknownUser ++ leftSuffix) }

/-- Result of one handler: the mutated state, the frames sent, and whether
the handler threw (an awaited `saveMessage` rejection, or a `TypeError`
from touching a missing `clients` entry). `storeOk = false` makes every
`saveMessage` call reject without inserting a row. -/
abbrev HandlerResult := RelayState × List Send × Bool

/-- `handleJoin`. On success the ordering of effects is: implicit
`leaveRoom` of the previous room (registry-only), rebind `clientInfo`,
add to the room set, `joined` ack, `history` payload (when non-empty),
presence broadcast to the other members, then `await saveMessage` —
a store rejection therefore happens after all sends. -/
def handleJoin (storeOk : Bool) (now : Nat) (ws : Nat) (m : InMsg)
    (s : RelayState) : HandlerResult :=
  match m.roomId, m.senderId with
  | some roomId, some senderId =>
      if roomId = "" ∨ senderId = "" then
        (s, sendError s ws errRoomSenderRequired now, false)
      else
        match lookupClient s ws with
        | none => (s, [], true)
        | some info =>
            let s1 := if truthyS info.roomId then
                leaveRoom ws (jsShow info.roomId) s
              else s
            let s2 := setClient ws
              { info with roomId := some roomId, userId := some senderId } s1
            let s3 := addToRoom roomId ws s2
            let ack : List Send := [(ws, Frame.joined roomId senderId now)]
            let payload := joinHistoryPayload s3.store roomId
            let histSends : List Send :=
              if payload = [] then [] else [(ws, Frame.history payload)]
            let jm := joinPresence roomId senderId now
            let bSends := broadcastToRoom s3 roomId jm (some ws)
            if storeOk then
              ({ s3 with store := s3.store ++ [jm] },
               ack ++ histSends ++ bSends, false)
            else (s3, ack ++ histSends ++ bSends, true)
  | _, _ => (s, sendError s ws errRoomSenderRequired now, false)

/-- `handleLeave`: broadcast the presence message to the other members,
`await saveMessage` (a rejection aborts before `leaveRoom` runs), then
release the binding. No-op when the connection has no bound room. -/
def handleLeave (storeOk : Bool) (now : Nat) (ws : Nat) (s : RelayState) :
    HandlerResult :=
  match lookupClient s ws with
  | none => (s, [], true)
  | some info =>
      if truthyS info.roomId then
        let roomId := jsShow info.roomId
        let lm := leavePresence roomId info.userId now
        let bSends := broadcastToRoom s roomId lm (some ws)
        if storeOk then
          (leaveRoom ws roomId { s with store := s.store ++ [lm] },
           bSends, false)
        else (s, bSends, true)
      else (s, [], false)

/-- `handleChatMessage` for `text`/`audio`/`video`: validate, normalize,
`await saveMessage`, then broadcast to all members including the sender.
A store rejection aborts before the broadcast. -/
def handleChatMessage (storeOk : Bool) (now : Nat) (ws : Nat) (m : InMsg)
    (s : RelayState) : HandlerResult :=
  match lookupClient s ws with
  | none => (s, [], true)
  | some info =>
      if ¬ truthyS info.roomId then
        (s, sendError s ws errNotInRoom now, false)
      else if ¬ truthyS m.content then
        (s, sendError s ws errContentRequired now, false)
      else
        let nm := normalizeChat info m now
        if storeOk then
          let s' := { s with store := s.store ++ [nm] }
          (s', broadcastToRoom s' nm.roomId nm none, false)
        else (s, [], true)

/-- `handleSystemMessage`: no-op without a bound room; otherwise persist
then broadcast to all members. -/
def handleSystemMessage (storeOk : Bool) (now : Nat) (ws : Nat) (m : InMsg)
    (s : RelayState) : HandlerResult :=
  match lookupClient s ws with
  | none => (s, [], true)
  | some info =>
      if ¬ truthyS info.roomId then (s, [], false)
      else
        let roomId := jsShow info.roomId
        let sm : Msg :=
          { type := systemSender
            roomId := roomId
            senderId := some systemSender
            timestamp := now
            content := m.content }
        if storeOk then
          let s' := { s with store := s.store ++ [sm] }
          (s', broadcastToRoom s' roomId sm none, false)
        else (s, [], true)

/-- The `switch (message.type)` of `handleMessage`. -/
def handleMessage (storeOk : Bool) (now : Nat) (ws : Nat) (m : InMsg)
    (s : RelayState) : HandlerResult :=
  if m.type = "join" then handleJoin storeOk now ws m s
  else if m.type = "leave" then handleLeave storeOk now ws s
  else if m.type = "text" ∨ m.type = "audio" ∨ m.type = "video" then
    handleChatMessage storeOk now ws m s
  else if m.type = systemSender then handleSystemMessage storeOk now ws m s
  else if m.type = "ping" then (s, [(ws, Frame.pong now)], false)
  else (s, [], false)

/-- The `ws.on('message')` callback: run `handleMessage` and, when it threw,
send the generic `Invalid message format` error frame. -/
def onMessage (storeOk : Bool) (now : Nat) (ws : Nat) (m : InMsg)
    (s : RelayState) : RelayState × List Send :=
  match handleMessage storeOk now ws m s with
  | (s', sends, threw) =>
      if threw then (s', sends ++ sendError s' ws errInvalidFormat now)
      else (s', sends)

/-- `handleDisconnect`: broadcast the leave presence to the others (not
persisted here), release the room binding, delete the client entry. -/
def handleDisconnect (now : Nat) (ws : Nat) (s : RelayState) :
    RelayState × List Send :=
  match lookupClient s ws with
  | none => (s, [])
  | some info =>
      let step :=
        if truthyS info.roomId then
          let roomId := jsShow info.roomId
          let lm := disconnectPresence roomId info.userId now
          (leaveRoom ws roomId s, broadcastToRoom s roomId lm (some ws))
        else (s, ([] : List Send))
      ({ step.1 with clients := step.1.clients.filter (fun p => p.1 ≠ ws) },
       step.2)

/-- Connection-level events driving the relay. -/
inductive Event where
  | connect (ws : Nat) (cid : String) (now : Nat)
  | message (ws : Nat) (m : InMsg) (storeOk : Bool) (now : Nat)
  | disconnect (ws : Nat) (now : Nat)

/-- One event applied to the state (frames returned alongside). `connect`
is the `wss.on('connection')` callback: a fresh `clients` entry with null
room and user, plus the welcome frame; `disconnect` closes the socket and
runs `handleDisconnect`. -/
def applyEvent (e : Event) (s : RelayState) : RelayState × List Send :=
  match e with
  | .connect ws cid now =>
      ({ s with
          clients := setClientList s.clients ws
            { id := cid, roomId := none, userId := none, connectedAt := now }
          openSet := if ws ∈ s.openSet then s.openSet else s.openSet ++ [ws] },
       [(ws, Frame.system welcomeText now)])
  | .message ws m storeOk now => onMessage storeOk now ws m s
  | .disconnect ws now =>
      handleDisconnect now ws { s with openSet := s.openSet.filter (· ≠ ws) }

def initState : RelayState :=
  { rooms := [], clients := [], openSet := [], store := [] }

/-- The state after a sequence of events from process start. -/
def runEvents (es : List Event) : RelayState :=
  es.foldl (fun s e => (applyEvent e s).1) initState

/-! ### Liveness monitor (the `heartbeatInterval` timer)

Per-connection view of the heartbeat loop in `initWebSocket`. The server
assigns `ws.isAlive` nowhere except inside the timer callback, and
registers no `'pong'` (nor any other response) listener, so `isAlive`
starts `undefined` and only ever becomes `false`. -/

/-- Heartbeat state of one connection: `isAlive` is `none` while the
property is still `undefined`, and `terminated` records `ws.terminate()`. -/
structure HBState where
  isAlive : Option Bool
  terminated : Bool
deriving Repr, DecidableEq

/-- A freshly accepted connection: `ws.isAlive` was never assigned. -/
def hbInit : HBState := { isAlive := none, terminated := false }

/-- One 30s timer tick for this connection:
`if (ws.isAlive === false) return ws.terminate(); ws.isAlive = false; ws.ping();` -/
def hbTick (c : HBState) : HBState :=
  if c.terminated then c
  else if c.isAlive = some false then { c with terminated := true }
  else { c with isAlive := some false }

/-- The client's pong response arriving at the server: the code registers
no `'pong'` listener, so the observed response changes nothing. -/
def hbPong (c : HBState) : HBState := c

inductive HBEvent where
  | tick
  | pong
deriving Repr, DecidableEq

def hbStep (c : HBState) : HBEvent → HBState
  | .tick => hbTick c
  | .pong => hbPong c

def hbRun (es : List HBEvent) : HBState := es.foldl hbStep hbInit

/-! ### Pull channel (`app.js` polling endpoints) -/

/-- A message in the `recentMessages` poll buffer. -/
structure PollMsg where
  id : String
  type : String
  senderId : String
  content : String
  roomId : String
  timestamp : Nat
deriving Repr, DecidableEq

/-- The poll-channel state: the in-memory `recentMessages` array and the
rows the database accepted (to observe buffer/store divergence). -/
structure PollState where
  recent : List PollMsg
  db : List PollMsg
deriving Repr, DecidableEq

def pollInit : PollState := { recent := [], db := [] }

def MAX_MESSAGES : Nat := 100

/-- The buffer update in `POST /api/send`:
`recentMessages.push(message); if (recentMessages.length > MAX_MESSAGES) recentMessages.shift();` -/
def pushTrim (buf : List PollMsg) (m : PollMsg) : List PollMsg :=
  let b := buf ++ [m]
  if MAX_MESSAGES < b.length then b.drop 1 else b

/-- Response of `POST /api/send`. -/
inductive SendResp where
  | badRequest (error : String)
  | ok (message : PollMsg)
deriving Repr, DecidableEq

/-- The message object built by `POST /api/send` (`rid` stands for the
random id suffix). -/
def sendMsg (now : Nat) (rid senderId content ty : String) : PollMsg :=
  { id := toString now ++ "_" ++ rid
    type := ty
    senderId := senderId
    content := content
    roomId := defaultRoom
    timestamp := now }

/-- `POST /api/send`: validate, push into the buffer (trimming to
`MAX_MESSAGES`), then `try { await saveMessage } catch { log }` — the
response is `{success: true, message}` whether or not the store accepted
the row (`storeOk`). -/
def apiSend (storeOk : Bool) (now : Nat) (rid senderId content ty : String)
    (st : PollState) : PollState × SendResp :=
  if senderId = "" ∨ content = "" then
    (st, SendResp.badRequest "senderId and content required")
  else
    let msg := sendMsg now rid senderId content ty
    ({ recent := pushTrim st.recent msg
       db := if storeOk then st.db ++ [msg] else st.db },
     SendResp.ok msg)

/-- The system message built by `POST /api/join`. -/
def joinMsgHttp (now : Nat) (senderId : String) : PollMsg :=
  { id := toString now ++ "_sys"
    type := systemSender
    senderId := systemSender
    content := senderId ++ joinedSuffix
    roomId := defaultRoom
    timestamp := now }

/-- `POST /api/join`: validate, `recentMessages.push(message)` — with no
trimming — then best-effort `saveMessage`. The `Bool` is success. -/
def apiJoin (storeOk : Bool) (now : Nat) (senderId : String)
    (st : PollState) : PollState × Bool :=
  if senderId = "" then (st, false)
  else
    let msg := joinMsgHttp now senderId
    ({ recent := st.recent ++ [msg]
       db := if storeOk then st.db ++ [msg] else st.db },
     true)

/-- `GET /api/messages?since=...`: `recentMessages.filter(m => m.timestamp > since)`. -/
def apiPoll (buf : List PollMsg) (since : Nat) : List PollMsg :=
  buf.filter (fun m => since < m.timestamp)

/-- The pull-channel operations that write the buffer. -/
inductive PollOp where
  | send (storeOk : Bool) (now : Nat) (rid senderId content ty : String)
  | join (storeOk : Bool) (now : Nat) (senderId : String)
deriving Repr, DecidableEq

def pollStep (st : PollState) : PollOp → PollState
  | .send storeOk now rid senderId content ty =>
      (apiSend storeOk now rid senderId content ty st).1
  | .join storeOk now senderId => (apiJoin storeOk now senderId st).1

def runPollOps (ops : List PollOp) : PollState :=
  ops.foldl pollStep pollInit

/-- Number of `/api/join` operations in a sequence. -/
def countJoins : List PollOp → Nat
  | [] => 0
  | PollOp.join _ _ _ :: rest => countJoins rest + 1
  | PollOp.send _ _ _ _ _ _ :: rest => countJoins rest

/-! ### Concrete test data for the scenario theorems -/

def r1 : String := "r1"

def r2 : String := "r2"

def u1 : String := "u1"

def u2 : String := "u2"

def hiText : String := "hi"

def textKind : String := "text"

def joinKind : String := "join"

def cidA : String := "cA"

def cidB : String := "cB"

/-- `join{roomId:"r1", senderId:"u1"}`. -/
def joinR1u1 : InMsg := { type := joinKind, roomId := some r1, senderId := some u1 }

/-- `join{roomId:"r1", senderId:"u2"}`. -/
def joinR1u2 : InMsg := { type := joinKind, roomId := some r1, senderId := some u2 }

/-- `join{roomId:"r2", senderId:"u1"}`. -/
def joinR2u1 : InMsg := { type := joinKind, roomId := some r2, senderId := some u1 }

/-- `text{"hi"}` with no client timestamp. -/
def textHi : InMsg := { type := textKind, content := some hiText }

/-- Scenario A events: connection 1 connects and joins `r1` as `u1`. -/
def esA : List Event :=
  [Event.connect 1 cidA 10, Event.message 1 joinR1u1 true 20]

def sA : RelayState := runEvents esA

/-- Two-member room: connections 1 (`u1`) and 2 (`u2`) both joined `r1`. -/
def esAB : List Event :=
  [Event.connect 1 cidA 0, Event.connect 2 cidB 0,
   Event.message 1 joinR1u1 true 1, Event.message 2 joinR1u2 true 2]

def sAB : RelayState := runEvents esAB

/-- `text{"hi"}` carrying a client-supplied timestamp of `5`. -/
def textHiTs5 : InMsg :=
  { type := textKind, content := some hiText, timestamp := some 5 }

/-- A chat frame that spoofs another user's `senderId`. -/
def textHiSpoof : InMsg :=
  { type := textKind, content := some hiText, senderId := some u2 }

/-- Whether a frame is a broadcast message echo (`Frame.msg`). -/
def isMsgFrame : Frame → Bool
  | Frame.msg _ => true
  | _ => false

/-- The normalized echo of Scenario A's `text{"hi"}` at server time 30. -/
def nmHi : Msg :=
  { type := textKind
    roomId := r1
    senderId := some u1
    timestamp := 30
    content := some hiText }

/-- One valid `/api/send` operation (timestamp 1). -/
def ceSend : PollOp := PollOp.send true 1 cidA u1 hiText textKind

/-- 100 sends followed by one `/api/join` announcement. -/
def ce4ops : List PollOp := List.replicate 100 ceSend ++ [PollOp.join true 1 u2]

/-- The `clients` record of connection 1 after `esA`. -/
def infoA : ClientInfo :=
  { id := cidA, roomId := some r1, userId := some u1, connectedAt := 10 }

/-- The `clients` record of connection 1 after `esAB`. -/
def infoAB1 : ClientInfo :=
  { id := cidA, roomId := some r1, userId := some u1, connectedAt := 0 }

/-- Registry invariant of C9: every room present in the map has at least
one member. -/
def RoomsOk (s : RelayState) : Prop :=
  ∀ p ∈ s.rooms, p.2 ≠ ([] : List Nat)

/-- Every client bound to a room carries a truthy `userId` (it was set by
the join that bound the room). -/
def ClientsOk (s : RelayState) : Prop :=
  ∀ p ∈ s.clients, truthyS p.2.roomId = true → truthyS p.2.userId = true

/-- The reachable-state invariant maintained by every event. -/
def Inv (s : RelayState) : Prop := RoomsOk s ∧ ClientsOk s

/-! ## Helper lemmas -/

lemma truthyS_some {o : Option String} (h : truthyS o = true) :
    ∃ u, o = some u ∧ u ≠ "" := by
  cases o with
  | none => simp [truthyS] at h
  | some s =>
      refine ⟨s, rfl, ?_⟩
      simpa [truthyS] using h

lemma jsOrS_truthy {a b : Option String} (h : truthyS a = true) :
    jsOrS a b = a := by
  simp [jsOrS, h]

lemma setClient_rooms (ws : Nat) (i : ClientInfo) (s : RelayState) :
    (setClient ws i s).rooms = s.rooms := rfl

lemma setClient_store (ws : Nat) (i : ClientInfo) (s : RelayState) :
    (setClient ws i s).store = s.store := rfl

lemma leaveRoom_store (ws : Nat) (r : String) (s : RelayState) :
    (leaveRoom ws r s).store = s.store := rfl

lemma addToRoom_clients (r : String) (ws : Nat) (s : RelayState) :
    (addToRoom r ws s).clients = s.clients := by
  unfold addToRoom
  split
  · rfl
  · split <;> rfl

lemma addToRoom_store (r : String) (ws : Nat) (s : RelayState) :
    (addToRoom r ws s).store = s.store := by
  unfold addToRoom
  split
  · rfl
  · split <;> rfl

lemma addToRoom_openSet (r : String) (ws : Nat) (s : RelayState) :
    (addToRoom r ws s).openSet = s.openSet := by
  unfold addToRoom
  split
  · rfl
  · split <;> rfl

lemma find?_setClientList (cs : List (Nat × ClientInfo)) (ws : Nat)
    (i : ClientInfo) :
    (setClientList cs ws i).find? (fun p => p.1 = ws) = some (ws, i) := by
  unfold setClientList
  split
  next hany =>
    induction cs with
    | nil => simp at hany
    | cons q cs ih =>
        by_cases h1 : q.1 = ws
        · simp [List.find?, h1]
        · simp only [List.map_cons, if_neg h1]
          rw [List.find?_cons_of_neg _ (by simpa using h1)]
          exact ih (by simpa [List.any_cons, h1] using hany)
  next hany =>
    induction cs with
    | nil => simp [List.find?]
    | cons q cs ih =>
        have h1 : ¬ q.1 = ws := by
          intro h
          exact hany (by simp [List.any_cons, h])
        simp only [List.cons_append]
        rw [List.find?_cons_of_neg _ (by simpa using h1)]
        exact ih (by
          intro h
          exact hany (by simp [List.any_cons]; right; simpa using h))

lemma lookupClient_setClient (ws : Nat) (i : ClientInfo) (s : RelayState) :
    lookupClient (setClient ws i s) ws = some i := by
  unfold lookupClient setClient
  simp [find?_setClientList]

lemma mem_setClientList {cs : List (Nat × ClientInfo)} {ws : Nat}
    {i : ClientInfo} {p : Nat × ClientInfo}
    (hp : p ∈ setClientList cs ws i) : p = (ws, i) ∨ p ∈ cs := by
  unfold setClientList at hp
  split at hp
  · obtain ⟨q, hq, rfl⟩ := List.mem_map.mp hp
    by_cases h1 : q.1 = ws
    · simp [h1]
    · simp only [if_neg h1]
      exact Or.inr hq
  · rcases List.mem_append.mp hp with h | h
    · exact Or.inr h
    · exact Or.inl (by simpa using h)

lemma broadcast_frames {s : RelayState} {roomId : String} {m : Msg}
    {exclude : Option Nat} {p : Send}
    (hp : p ∈ broadcastToRoom s roomId m exclude) : p.2 = Frame.msg m := by
  unfold broadcastToRoom at hp
  split at hp
  · simp at hp
  · obtain ⟨c, _, rfl⟩ := List.mem_map.mp hp
    rfl

lemma onMessage_fst (storeOk : Bool) (now ws : Nat) (m : InMsg)
    (s : RelayState) :
    (onMessage storeOk now ws m s).1 = (handleMessage storeOk now ws m s).1 := by
  unfold onMessage
  rcases handleMessage storeOk now ws m s with ⟨s', sends, threw⟩
  cases threw <;> simp

lemma chat_dispatch {m : InMsg}
    (hty : m.type = "text" ∨ m.type = "audio" ∨ m.type = "video")
    (storeOk : Bool) (now ws : Nat) (s : RelayState) :
    handleMessage storeOk now ws m s = handleChatMessage storeOk now ws m s := by
  rcases hty with h | h | h <;> simp [handleMessage, h]

lemma chat_success {s : RelayState} {ws : Nat} {m : InMsg} {info : ClientInfo}
    (hty : m.type = "text" ∨ m.type = "audio" ∨ m.type = "video")
    (hc : lookupClient s ws = some info)
    (hb : truthyS info.roomId = true)
    (hcont : truthyS m.content = true) (now : Nat) :
    onMessage true now ws m s =
      ({ s with store := s.store ++ [normalizeChat info m now] },
       broadcastToRoom { s with store := s.store ++ [normalizeChat info m now] }
         (normalizeChat info m now).roomId (normalizeChat info m now) none) := by
  unfold onMessage
  rw [chat_dispatch hty]
  unfold handleChatMessage
  rw [hc]
  simp [hb, hcont]

lemma chat_storeFail {s : RelayState} {ws : Nat} {m : InMsg} {info : ClientInfo}
    (hty : m.type = "text" ∨ m.type = "audio" ∨ m.type = "video")
    (hc : lookupClient s ws = some info)
    (hb : truthyS info.roomId = true)
    (hcont : truthyS m.content = true) (now : Nat) :
    onMessage false now ws m s = (s, sendError s ws errInvalidFormat now) := by
  unfold onMessage
  rw [chat_dispatch hty]
  unfold handleChatMessage
  rw [hc]
  simp [hb, hcont]

lemma roomsOk_of_eq {s t : RelayState} (h : s.rooms = t.rooms)
    (hs : RoomsOk s) : RoomsOk t := by
  intro p hp
  exact hs p (h ▸ hp)

lemma clientsOk_of_eq {s t : RelayState} (h : s.clients = t.clients)
    (hs : ClientsOk s) : ClientsOk t := by
  intro p hp
  exact hs p (h ▸ hp)

lemma roomsOk_leaveRoom {s : RelayState} (h : RoomsOk s) (ws : Nat)
    (r : String) : RoomsOk (leaveRoom ws r s) := by
  intro p hp
  unfold leaveRoom at hp
  simp only at hp
  cases hfind : lookupRoom s r with
  | none =>
      rw [hfind] at hp
      exact h p hp
  | some members =>
      rw [hfind] at hp
      dsimp only at hp
      by_cases he : members.erase ws = []
      · rw [if_pos he] at hp
        exact h p (List.mem_filter.mp hp).1
      · rw [if_neg he] at hp
        obtain ⟨q, hq, rfl⟩ := List.mem_map.mp hp
        by_cases h1 : q.1 = r
        · simpa [h1] using he
        · simpa [h1] using h q hq

lemma clientsOk_leaveRoom {s : RelayState} (h : ClientsOk s) (ws : Nat)
    (r : String) : ClientsOk (leaveRoom ws r s) := by
  intro p hp
  unfold leaveRoom at hp
  simp only at hp
  obtain ⟨q, hq, rfl⟩ := List.mem_map.mp hp
  by_cases h1 : q.1 = ws
  · simp [h1, truthyS]
  · simpa [h1] using h q hq

lemma inv_leaveRoom {s : RelayState} (h : Inv s) (ws : Nat) (r : String) :
    Inv (leaveRoom ws r s) :=
  ⟨roomsOk_leaveRoom h.1 ws r, clientsOk_leaveRoom h.2 ws r⟩

lemma roomsOk_addToRoom {s : RelayState} (h : RoomsOk s) (r : String)
    (ws : Nat) : RoomsOk (addToRoom r ws s) := by
  intro p hp
  unfold addToRoom at hp
  split at hp
  · rcases List.mem_append.mp hp with h1 | h1
    · exact h p h1
    · simp only [List.mem_singleton] at h1
      subst h1
      simp
  · split at hp
    · exact h p hp
    · obtain ⟨q, hq, rfl⟩ := List.mem_map.mp hp
      by_cases h1 : q.1 = r
      · simp [h1]
      · simpa [h1] using h q hq

lemma inv_addToRoom {s : RelayState} (h : Inv s) (r : String) (ws : Nat) :
    Inv (addToRoom r ws s) :=
  ⟨roomsOk_addToRoom h.1 r ws,
   clientsOk_of_eq (addToRoom_clients r ws s).symm h.2⟩

lemma clientsOk_setClient {s : RelayState} (h : ClientsOk s) (ws : Nat)
    {i : ClientInfo} (hi : truthyS i.roomId = true → truthyS i.userId = true) :
    ClientsOk (setClient ws i s) := by
  intro p hp
  rcases mem_setClientList hp with h1 | h1
  · subst h1
    exact hi
  · exact h p h1

lemma inv_setClient {s : RelayState} (h : Inv s) (ws : Nat) {i : ClientInfo}
    (hi : truthyS i.roomId = true → truthyS i.userId = true) :
    Inv (setClient ws i s) :=
  ⟨roomsOk_of_eq (setClient_rooms ws i s).symm h.1,
   clientsOk_setClient h.2 ws hi⟩

lemma inv_store {s : RelayState} (h : Inv s) (x : List Msg) :
    Inv { s with store := x } :=
  ⟨roomsOk_of_eq rfl h.1, clientsOk_of_eq rfl h.2⟩

lemma inv_openSet {s : RelayState} (h : Inv s) (x : List Nat) :
    Inv { s with openSet := x } :=
  ⟨roomsOk_of_eq rfl h.1, clientsOk_of_eq rfl h.2⟩

lemma inv_handleJoin {s : RelayState} (h : Inv s) (storeOk : Bool)
    (now ws : Nat) (m : InMsg) : Inv (handleJoin storeOk now ws m s).1 := by
  unfold handleJoin
  cases hr : m.roomId with
  | none => exact h
  | some roomId =>
      cases hs0 : m.senderId with
      | none => exact h
      | some senderId =>
          dsimp only
          by_cases hv : roomId = "" ∨ senderId = ""
          · simp only [if_pos hv]
            exact h
          · simp only [if_neg hv]
            cases hc : lookupClient s ws with
            | none => exact h
            | some info =>
                dsimp only
                have hroom : ¬ roomId = "" := fun hh => hv (Or.inl hh)
                have huser : ¬ senderId = "" := fun hh => hv (Or.inr hh)
                have h1 : Inv (if truthyS info.roomId = true then
                    leaveRoom ws (jsShow info.roomId) s else s) := by
                  split
                  · exact inv_leaveRoom h ws _
                  · exact h
                have h3 : Inv (addToRoom roomId ws (setClient ws
                    { info with roomId := some roomId,
                                userId := some senderId }
                    (if truthyS info.roomId = true then
                      leaveRoom ws (jsShow info.roomId) s else s))) := by
                  refine inv_addToRoom (inv_setClient h1 ws ?_) roomId ws
                  intro _
                  simpa [truthyS] using huser
                cases storeOk
                · simpa using h3
                · simpa using inv_store h3 _

lemma inv_handleLeave {s : RelayState} (h : Inv s) (storeOk : Bool)
    (now ws : Nat) : Inv (handleLeave storeOk now ws s).1 := by
  unfold handleLeave
  cases hc : lookupClient s ws with
  | none => exact h
  | some info =>
      dsimp only
      by_cases hb : truthyS info.roomId = true
      · simp only [if_pos hb]
        cases storeOk
        · simpa using h
        · simpa using inv_leaveRoom (inv_store h _) ws _
      · simp only [if_neg hb]
        exact h

lemma inv_handleChatMessage {s : RelayState} (h : Inv s) (storeOk : Bool)
    (now ws : Nat) (m : InMsg) :
    Inv (handleChatMessage storeOk now ws m s).1 := by
  unfold handleChatMessage
  cases hc : lookupClient s ws with
  | none => exact h
  | some info =>
      dsimp only
      split
      · exact h
      · split
        · exact h
        · cases storeOk
          · simpa using h
          · simpa using inv_store h _

lemma inv_handleSystemMessage {s : RelayState} (h : Inv s) (storeOk : Bool)
    (now ws : Nat) (m : InMsg) :
    Inv (handleSystemMessage storeOk now ws m s).1 := by
  unfold handleSystemMessage
  cases hc : lookupClient s ws with
  | none => exact h
  | some info =>
      dsimp only
      split
      · exact h
      · cases storeOk
        · simpa using h
        · simpa using inv_store h _

lemma inv_handleMessage {s : RelayState} (h : Inv s) (storeOk : Bool)
    (now ws : Nat) (m : InMsg) : Inv (handleMessage storeOk now ws m s).1 := by
  unfold handleMessage
  split
  · exact inv_handleJoin h storeOk now ws m
  · split
    · exact inv_handleLeave h storeOk now ws
    · split
      · exact inv_handleChatMessage h storeOk now ws m
      · split
        · exact inv_handleSystemMessage h storeOk now ws m
        · split
          · exact h
          · exact h

lemma inv_onMessage {s : RelayState} (h : Inv s) (storeOk : Bool)
    (now ws : Nat) (m : InMsg) : Inv (onMessage storeOk now ws m s).1 := by
  rw [onMessage_fst]
  exact inv_handleMessage h storeOk now ws m

lemma inv_handleDisconnect {s : RelayState} (h : Inv s) (now ws : Nat) :
    Inv (handleDisconnect now ws s).1 := by
  unfold handleDisconnect
  cases hc : lookupClient s ws with
  | none => exact h
  | some info =>
      dsimp only
      have hstep : Inv (if truthyS info.roomId = true then
          (leaveRoom ws (jsShow info.roomId) s,
           broadcastToRoom s (jsShow info.roomId)
             (disconnectPresence (jsShow info.roomId) info.userId now)
             (some ws))
        else (s, ([] : List Send))).1 := by
        split
        · exact inv_leaveRoom h ws _
        · exact h
      refine ⟨roomsOk_of_eq rfl hstep.1, ?_⟩
      intro p hp
      exact hstep.2 p (List.mem_filter.mp hp).1

lemma inv_applyEvent {s : RelayState} (h : Inv s) (e : Event) :
    Inv (applyEvent e s).1 := by
  cases e with
  | connect ws cid now =>
      dsimp only [applyEvent]
      refine ⟨roomsOk_of_eq rfl h.1, ?_⟩
      intro p hp
      rcases mem_setClientList hp with h1 | h1
      · subst h1
        simp [truthyS]
      · exact h.2 p h1
  | message ws m storeOk now => exact inv_onMessage h storeOk now ws m
  | disconnect ws now =>
      exact inv_handleDisconnect (inv_openSet h _) now ws

lemma inv_initState : Inv initState := by
  constructor <;> intro p hp <;> simp [initState] at hp

lemma inv_foldl (es : List Event) :
    ∀ s : RelayState, Inv s →
      Inv (es.foldl (fun s e => (applyEvent e s).1) s) := by
  induction es with
  | nil => intro s h; exact h
  | cons e rest ih =>
      intro s h
      exact ih _ (inv_applyEvent h e)

lemma inv_runEvents (es : List Event) : Inv (runEvents es) :=
  inv_foldl es initState inv_initState

/-- Claim C1, counterexample: connection 1 is bound to room `r1` together
with member 2, sends `text{"hi"}`, and the persistence append fails. The
relay does not complete the broadcast: the state (including the room
membership and store) is unchanged, the only frame sent is the generic
error frame back to the sender, and no member receives a message echo. -/
theorem storeError_broadcast_suppressed_cex :
    (onMessage false 3 1 textHi sAB).1 = sAB ∧
    (onMessage false 3 1 textHi sAB).2 = [(1, Frame.error errInvalidFormat 3)] ∧
    ((onMessage false 3 1 textHi sAB).2.filter (fun p => isMsgFrame p.2)) = [] := by
  decide

/-- Claim C2 (code bug): a connection accepted by the server, probed once,
answering that probe with a pong, is nevertheless terminated by the next
probe interval — the server registers no `'pong'` listener, so the observed
response leaves the liveness flag unchanged (second conjunct) and
`ws.isAlive === false` still holds at the second tick. -/
theorem heartbeat_evicts_responsive_connection :
    (hbRun [HBEvent.tick, HBEvent.pong, HBEvent.tick]).terminated = true ∧
    hbPong (hbTick hbInit) = hbTick hbInit := by
  decide

/-- Claim C3, counterexample: the bound connection of Scenario A sends
`text{"hi"}` with client-supplied `timestamp: 5` while the server clock
reads 1000; the persisted and broadcast message carries timestamp 5, not
the server-assigned time. -/
theorem client_timestamp_trusted_cex :
    ((onMessage true 1000 1 textHiTs5 sA).1.store.getLast?.map
      Msg.timestamp) = some 5 ∧
    (onMessage true 1000 1 textHiTs5 sA).2 =
      [(1, Frame.msg
        { type := textKind
          roomId := r1
          senderId := some u1
          timestamp := 5
          content := some hiText })] ∧
    (5 : Nat) ≠ 1000 := by
  decide

set_option maxRecDepth 4000 in
/-- Claim C4, counterexample: 100 valid sends followed by a single
`/api/join` announcement leave 101 entries in the poll buffer, and
`poll(0)` returns all 101 of them — more than the capacity of 100. -/
theorem pollBuffer_overflow_cex :
    (runPollOps ce4ops).recent.length = 101 ∧
    (apiPoll (runPollOps ce4ops).recent 0).length = 101 ∧
    ¬ (runPollOps ce4ops).recent.length ≤ MAX_MESSAGES := by
  decide

/-- Claim C5, counterexample: connections 1 (`u1`) and 2 (`u2`) are both in
`r1`; connection 1 then joins `r2`. The implicit leave of `r1` emits no
side effects: the only frame sent to anyone is the `joined` ack to
connection 1 (member 2 receives no `left` presence message), and the store
gains no row for `r1`. -/
theorem implicit_leave_silent_cex :
    (onMessage true 3 1 joinR2u1 sAB).2 = [(1, Frame.joined r2 u1 3)] ∧
    ((onMessage true 3 1 joinR2u1 sAB).1.store.filter
      (fun mm => mm.roomId = r1)) =
      (sAB.store.filter (fun mm => mm.roomId = r1)) := by
  decide

/-- Claim C6, counterexample: after Scenario A (empty store, connection 1
joins `r1` as `u1` and sends `text{"hi"}`), the store holds exactly two
rows for `r1` — the join presence row and the chat row — not one. -/
theorem scenarioA_two_rows_cex :
    ((onMessage true 30 1 textHi sA).1.store.filter
      (fun mm => mm.roomId = r1)).length = 2 ∧
    ¬ ((onMessage true 30 1 textHi sA).1.store.filter
      (fun mm => mm.roomId = r1)).length = 1 := by
  decide

/-- Claim C6 as amended: in Scenario A the sender receives back exactly one
frame, the normalized `text` echo with `senderId = "u1"` and
`content = "hi"`, and the store contains exactly two rows for `r1` (the
join presence message and the chat message). -/
theorem scenarioA_amended :
    (onMessage true 30 1 textHi sA).2 = [(1, Frame.msg nmHi)] ∧
    nmHi.senderId = some u1 ∧
    nmHi.content = some hiText ∧
    nmHi.type = textKind ∧
    ((onMessage true 30 1 textHi sA).1.store.filter
      (fun mm => mm.roomId = r1)).length = 2 ∧
    ((onMessage true 30 1 textHi sA).1.store.filter
      (fun mm => mm.roomId = r1)).map Msg.type = [systemSender, textKind] := by
  decide

end Chat





namespace Chat

/-- Claim C9: after any sequence of registry operations, every room present
in the registry map has a non-empty member set — a room whose last member
leaves is removed immediately. -/
theorem registry_rooms_nonempty (es : List Event) :
    ∀ p ∈ (runEvents es).rooms, p.2 ≠ ([] : List Nat) :=
  (inv_runEvents es).1

/-- Witness for C9 at a concrete run: after Scenario A's events the map
holds room `r1` with member list `[1]`, which is non-empty. -/
theorem registry_rooms_nonempty_witness :
    ((r1, [1]) ∈ (runEvents esA).rooms) ∧ (([1] : List Nat) ≠ []) :=
  ⟨by decide, registry_rooms_nonempty esA (r1, [1]) (by decide)⟩

/-- Claim C7: in any reachable state, a chat message from a connection
bound to a room is persisted and broadcast with `senderId` equal to the
user identity bound at the connection's most recent join (which is truthy),
regardless of any `senderId` carried by the inbound frame. -/
theorem chat_senderId_is_bound_identity (es : List Event) (ws now : Nat)
    (m : InMsg) (info : ClientInfo)
    (hty : m.type = "text" ∨ m.type = "audio" ∨ m.type = "video")
    (hc : lookupClient (runEvents es) ws = some info)
    (hb : truthyS info.roomId = true)
    (hcont : truthyS m.content = true) :
    ∃ u, info.userId = some u ∧ u ≠ "" ∧
      (normalizeChat info m now).senderId = some u ∧
      (onMessage true now ws m (runEvents es)).1.store =
        (runEvents es).store ++ [normalizeChat info m now] ∧
      ∀ p ∈ (onMessage true now ws m (runEvents es)).2,
        p.2 = Frame.msg (normalizeChat info m now) := by
  obtain ⟨q, hq, hq2⟩ := Option.map_eq_some'.mp hc
  have hu : truthyS info.userId = true := by
    have h2 := (inv_runEvents es).2 q (List.mem_of_find?_eq_some hq)
    rw [hq2] at h2
    exact h2 hb
  obtain ⟨u, hus, hune⟩ := truthyS_some hu
  refine ⟨u, hus, hune, ?_, ?_, ?_⟩
  · simp [normalizeChat, hus, jsOrS, truthyS, hune]
  · rw [chat_success hty hc hb hcont now]
  · intro p hp
    rw [chat_success hty hc hb hcont now] at hp
    exact broadcast_frames hp

/-- Witness for C7: connection 1 of Scenario A, bound as `u1`, sends a
`text` frame spoofing `senderId = "u2"`; the persisted and broadcast
message still carries `senderId = "u1"`. -/
theorem chat_senderId_witness :
    (truthyS infoA.roomId = true) ∧
    (∃ u, infoA.userId = some u ∧ u ≠ "" ∧
      (normalizeChat infoA textHiSpoof 2).senderId = some u ∧
      (onMessage true 2 1 textHiSpoof (runEvents esA)).1.store =
        (runEvents esA).store ++ [normalizeChat infoA textHiSpoof 2] ∧
      ∀ p ∈ (onMessage true 2 1 textHiSpoof (runEvents esA)).2,
        p.2 = Frame.msg (normalizeChat infoA textHiSpoof 2)) :=
  ⟨by decide,
   chat_senderId_is_bound_identity esA 1 2 textHiSpoof infoA
     (Or.inl (by decide)) (by decide) (by decide) (by decide)⟩

/-- Claim C1 as amended: when the persistence append of a chat message
fails, the relay does not complete the broadcast — the exception
propagates to the message handler, the state is left unchanged, the sender
alone receives the generic error frame, and no member receives the message
echo. (Join/leave presence messages are broadcast before the `saveMessage`
call and are unaffected by a store failure.) -/
theorem chat_storeError_suppresses_broadcast (s : RelayState) (ws now : Nat)
    (m : InMsg) (info : ClientInfo)
    (hty : m.type = "text" ∨ m.type = "audio" ∨ m.type = "video")
    (hc : lookupClient s ws = some info)
    (hb : truthyS info.roomId = true)
    (hcont : truthyS m.content = true) :
    (onMessage false now ws m s).1 = s ∧
    (onMessage false now ws m s).2 = sendError s ws errInvalidFormat now ∧
    (onMessage false now ws m s).2.filter (fun p => isMsgFrame p.2) = [] := by
  rw [chat_storeFail hty hc hb hcont now]
  refine ⟨rfl, rfl, ?_⟩
  unfold sendError
  split
  · simp [isMsgFrame]
  · rfl

/-- Witness for the amended C1: the two-member room of `esAB`, a failing
store, and `text{"hi"}` from connection 1. -/
theorem chat_storeError_witness :
    (lookupClient sAB 1 = some infoAB1) ∧
    ((onMessage false 3 1 textHi sAB).1 = sAB ∧
     (onMessage false 3 1 textHi sAB).2 = sendError sAB 1 errInvalidFormat 3 ∧
     (onMessage false 3 1 textHi sAB).2.filter (fun p => isMsgFrame p.2) = []) :=
  ⟨by decide,
   chat_storeError_suppresses_broadcast sAB 1 3 textHi infoAB1
     (Or.inl (by decide)) (by decide) (by decide) (by decide)⟩

/-- Claim C3 as amended: the server assigns the chat timestamp only when
the client supplies none (or a falsy `0`); a truthy client-supplied
timestamp is used as-is for the persisted and broadcast message
(`timestamp: message.timestamp || Date.now()`). -/
theorem chat_timestamp_client_or_server (s : RelayState) (ws now : Nat)
    (m : InMsg) (info : ClientInfo)
    (hty : m.type = "text" ∨ m.type = "audio" ∨ m.type = "video")
    (hc : lookupClient s ws = some info)
    (hb : truthyS info.roomId = true)
    (hcont : truthyS m.content = true) :
    (onMessage true now ws m s).1.store =
      s.store ++ [normalizeChat info m now] ∧
    (normalizeChat info m now).timestamp = jsOrN m.timestamp now ∧
    (truthyN m.timestamp = false → (normalizeChat info m now).timestamp = now) ∧
    (∀ t, m.timestamp = some t → t ≠ 0 →
      (normalizeChat info m now).timestamp = t) := by
  refine ⟨?_, rfl, ?_, ?_⟩
  · rw [chat_success hty hc hb hcont now]
  · intro ht
    cases hmt : m.timestamp with
    | none => simp [normalizeChat, jsOrN, hmt]
    | some t =>
        rw [hmt] at ht
        have ht0 : t = 0 := by simpa [truthyN] using ht
        subst ht0
        simp [normalizeChat, jsOrN, hmt]
  · intro t hmt htne
    simp [normalizeChat, jsOrN, hmt, htne]

/-- Witness for the amended C3: Scenario A's connection sends `text{"hi"}`
with client timestamp 5 at server time 1000; the stored message keeps 5. -/
theorem chat_timestamp_witness :
    (truthyS textHiTs5.content = true) ∧
    ((onMessage true 1000 1 textHiTs5 sA).1.store =
      sA.store ++ [normalizeChat infoA textHiTs5 1000] ∧
     (normalizeChat infoA textHiTs5 1000).timestamp =
       jsOrN textHiTs5.timestamp 1000 ∧
     (truthyN textHiTs5.timestamp = false →
       (normalizeChat infoA textHiTs5 1000).timestamp = 1000) ∧
     (∀ t, textHiTs5.timestamp = some t → t ≠ 0 →
       (normalizeChat infoA textHiTs5 1000).timestamp = t)) :=
  ⟨by decide,
   chat_timestamp_client_or_server sA 1 1000 textHiTs5 infoA
     (Or.inl (by decide)) (by decide) (by decide) (by decide)⟩

end Chat

namespace Chat

/-- Claim C8: page 1 of the history query returns at most `size` rows,
most-recent-first, and its reversal — the `history` payload the relay sends
on join — is in non-decreasing timestamp order. -/
theorem history_page1_chronological (store : List Msg) (roomId : String)
    (size : Nat) :
    List.Sorted tsLe ((getHistory store roomId 1 size).reverse) ∧
    (getHistory store roomId 1 size).length ≤ size ∧
    List.Sorted tsLe (joinHistoryPayload store roomId) := by
  have hgh : ∀ n : Nat, getHistory store roomId 1 n =
      ((store.filter (fun m => m.roomId = roomId)).insertionSort tsGe).take n := by
    intro n
    simp [getHistory]
  have hrev : ∀ n : Nat,
      List.Sorted tsLe ((getHistory store roomId 1 n).reverse) := by
    intro n
    rw [hgh n, List.Sorted, List.pairwise_reverse]
    exact (List.sorted_insertionSort tsGe _).sublist (List.take_sublist _ _)
  refine ⟨hrev size, ?_, hrev 50⟩
  rw [hgh size]
  exact List.length_take_le _ _

lemma pushTrim_length_le (buf : List PollMsg) (m : PollMsg) :
    (pushTrim buf m).length ≤ max buf.length MAX_MESSAGES := by
  unfold pushTrim
  dsimp only
  split
  next h =>
    refine le_trans ?_ (le_max_left _ _)
    simp
  next h =>
    refine le_trans ?_ (le_max_right _ _)
    simpa using Nat.le_of_not_lt h

lemma countJoins_cons (op : PollOp) (rest : List PollOp) :
    countJoins (op :: rest) = countJoins rest + countJoins [op] := by
  cases op <;> simp [countJoins]

lemma pollStep_length (st : PollState) (op : PollOp) :
    (pollStep st op).recent.length ≤
      max st.recent.length MAX_MESSAGES + countJoins [op] := by
  cases op with
  | send storeOk now rid senderId content ty =>
      dsimp only [pollStep, apiSend]
      split
      · simp only [countJoins, Nat.add_zero]
        exact le_max_left st.recent.length MAX_MESSAGES
      · simp only [countJoins, Nat.add_zero]
        exact pushTrim_length_le st.recent _
  | join storeOk now senderId =>
      dsimp only [pollStep, apiJoin]
      split
      · simp only [countJoins]
        exact le_trans (le_max_left st.recent.length MAX_MESSAGES) (Nat.le_succ _)
      · simp only [countJoins, List.length_append, List.length_singleton]
        exact Nat.succ_le_succ (le_max_left st.recent.length MAX_MESSAGES)

lemma runPoll_bound_aux (ops : List PollOp) :
    ∀ st : PollState, (ops.foldl pollStep st).recent.length ≤
      max st.recent.length MAX_MESSAGES + countJoins ops := by
  induction ops with
  | nil =>
      intro st
      simp only [countJoins, List.foldl_nil, Nat.add_zero]
      exact le_max_left st.recent.length MAX_MESSAGES
  | cons op rest ih =>
      intro st
      have h1 := pollStep_length st op
      have h2 := ih (pollStep st op)
      have h3 : max (pollStep st op).recent.length MAX_MESSAGES ≤
          max st.recent.length MAX_MESSAGES + countJoins [op] :=
        max_le h1 (le_trans (le_max_right _ _) (Nat.le_add_right _ _))
      have h4 : countJoins (op :: rest) = countJoins rest + countJoins [op] :=
        countJoins_cons op rest
      have h5 : (List.foldl pollStep st (op :: rest)).recent.length =
          (List.foldl pollStep (pollStep st op) rest).recent.length := rfl
      omega

/-- Claim C4 as amended: after any sequence of pull-channel operations the
poll buffer holds at most `100 + (number of join announcements)` entries —
only `/api/send` enforces the capacity of 100 (dropping the oldest entry on
overflow), while `/api/join` appends without trimming, so `poll(0)` can
return more than 100 entries but never more than that bound. -/
theorem pollBuffer_bounded_amended (ops : List PollOp) :
    (runPollOps ops).recent.length ≤ MAX_MESSAGES + countJoins ops ∧
    (apiPoll (runPollOps ops).recent 0).length ≤
      MAX_MESSAGES + countJoins ops := by
  have h := runPoll_bound_aux ops pollInit
  have h0 : max pollInit.recent.length MAX_MESSAGES = MAX_MESSAGES := by
    simp [pollInit]
  rw [h0] at h
  have hh : (runPollOps ops).recent.length ≤ MAX_MESSAGES + countJoins ops := h
  exact ⟨hh, le_trans (List.length_filter_le _ _) hh⟩

lemma mem_pushTrim (buf : List PollMsg) (m : PollMsg) : m ∈ pushTrim buf m := by
  unfold pushTrim
  dsimp only
  split
  next h =>
    cases buf with
    | nil => simp [MAX_MESSAGES] at h
    | cons b bs => simp
  next h => simp

/-- Claim C10: for every valid `/api/send` request (non-empty `senderId`
and `content`), the endpoint answers `{success: true, message}` and the
message sits in the poll buffer even when the database write fails — in
which case the store is unchanged, so buffer and store diverge. -/
theorem apiSend_success_despite_storeError (st : PollState) (now : Nat)
    (rid senderId content ty : String)
    (hs : senderId ≠ "") (hc : content ≠ "") :
    (apiSend false now rid senderId content ty st).2 =
      SendResp.ok (sendMsg now rid senderId content ty) ∧
    sendMsg now rid senderId content ty ∈
      (apiSend false now rid senderId content ty st).1.recent ∧
    (apiSend false now rid senderId content ty st).1.db = st.db := by
  have hv : ¬ (senderId = "" ∨ content = "") := by
    rintro (h | h)
    · exact hs h
    · exact hc h
  unfold apiSend
  rw [if_neg hv]
  exact ⟨rfl, mem_pushTrim _ _, rfl⟩

/-- Witness for C10: a concrete valid send against a failing store from the
empty state. -/
theorem apiSend_success_witness :
    (u1 ≠ "") ∧
    ((apiSend false 1 cidA u1 hiText textKind pollInit).2 =
       SendResp.ok (sendMsg 1 cidA u1 hiText textKind) ∧
     sendMsg 1 cidA u1 hiText textKind ∈
       (apiSend false 1 cidA u1 hiText textKind pollInit).1.recent ∧
     (apiSend false 1 cidA u1 hiText textKind pollInit).1.db = pollInit.db) :=
  ⟨by decide,
   apiSend_success_despite_storeError pollInit 1 cidA u1 hiText textKind
     (by decide) (by decide)⟩

end Chat

namespace Chat

lemma lookupClient_congr {s t : RelayState} (h : s.clients = t.clients)
    (ws : Nat) : lookupClient s ws = lookupClient t ws := by
  unfold lookupClient
  rw [h]

lemma join_shape {s : RelayState} {ws : Nat} {m : InMsg}
    {info : ClientInfo} {newRoom newUser : String}
    (hr : m.roomId = some newRoom) (hu : m.senderId = some newUser)
    (hnr : newRoom ≠ "") (hnu : newUser ≠ "")
    (hc : lookupClient s ws = some info)
    (hb : truthyS info.roomId = true) (storeOk : Bool) (now : Nat) :
    handleJoin storeOk now ws m s =
      (let s3 := addToRoom newRoom ws (setClient ws
          { info with roomId := some newRoom, userId := some newUser }
          (leaveRoom ws (jsShow info.roomId) s))
       let jm := joinPresence newRoom newUser now
       let payload := joinHistoryPayload s3.store newRoom
       let sends := [(ws, Frame.joined newRoom newUser now)] ++
         (if payload = [] then [] else [(ws, Frame.history payload)]) ++
         broadcastToRoom s3 newRoom jm (some ws)
       if storeOk then
         ({ s3 with store := s3.store ++ [jm] }, sends, false)
       else (s3, sends, true)) := by
  unfold handleJoin
  rw [hr, hu]
  dsimp only
  rw [if_neg (by
    rintro (h | h)
    · exact hnr h
    · exact hnu h), hc]
  dsimp only
  rw [if_pos hb]

end Chat

namespace Chat

lemma lookupRoom_congr {s t : RelayState} (h : s.rooms = t.rooms)
    (r : String) : lookupRoom s r = lookupRoom t r := by
  unfold lookupRoom
  rw [h]

lemma find?_key_filter_self (l : List (String × List Nat)) (r : String) :
    (l.filter (fun p => p.1 ≠ r)).find? (fun p => p.1 = r) = none := by
  induction l with
  | nil => rfl
  | cons q rest ih =>
      by_cases h1 : q.1 = r
      · rw [show (q :: rest).filter (fun p => p.1 ≠ r) =
            rest.filter (fun p => p.1 ≠ r) from by
          simp [List.filter_cons, h1]]
        exact ih
      · simp only [List.filter_cons]
        rw [if_pos (by simpa using h1)]
        rw [List.find?_cons_of_neg _ (by simpa using h1)]
        exact ih

lemma find?_key_filter_other (l : List (String × List Nat)) (r r' : String)
    (h : r' ≠ r) :
    (l.filter (fun p => p.1 ≠ r)).find? (fun p => p.1 = r') =
      l.find? (fun p => p.1 = r') := by
  induction l with
  | nil => rfl
  | cons q rest ih =>
      by_cases h1 : q.1 = r
      · have h2 : ¬ q.1 = r' := by
          rw [h1]
          exact fun hh => h hh.symm
        simp only [List.filter_cons, h1]
        rw [List.find?_cons_of_neg _ (by simpa using h2)]
        simpa using ih
      · by_cases h2 : q.1 = r'
        · simp only [List.filter_cons]
          rw [if_pos (by simpa using h1)]
          rw [List.find?_cons_of_pos _ (by simpa using h2),
            List.find?_cons_of_pos _ (by simpa using h2)]
        · simp only [List.filter_cons]
          rw [if_pos (by simpa using h1)]
          rw [List.find?_cons_of_neg _ (by simpa using h2),
            List.find?_cons_of_neg _ (by simpa using h2)]
          exact ih

lemma find?_key_map_update (l : List (String × List Nat)) (r : String)
    (f : List Nat → List Nat) (r' : String) :
    (l.map (fun p => if p.1 = r then (p.1, f p.2) else p)).find?
        (fun p => p.1 = r') =
      (l.find? (fun p => p.1 = r')).map
        (fun p => if p.1 = r then (p.1, f p.2) else p) := by
  induction l with
  | nil => rfl
  | cons q rest ih =>
      have hk : ((if q.1 = r then (q.1, f q.2) else q) :
          String × List Nat).1 = q.1 := by
        split <;> rfl
      by_cases h2 : q.1 = r'
      · rw [List.map_cons]
        rw [List.find?_cons_of_pos _ (by simpa [hk] using h2),
          List.find?_cons_of_pos _ (by simpa using h2)]
        rfl
      · rw [List.map_cons]
        rw [List.find?_cons_of_neg _ (by simpa [hk] using h2),
          List.find?_cons_of_neg _ (by simpa using h2)]
        exact ih

lemma lookupRoom_leaveRoom_self (ws : Nat) (r : String) (s : RelayState) :
    lookupRoom (leaveRoom ws r s) r =
      (match lookupRoom s r with
       | none => none
       | some members =>
           if members.erase ws = [] then none
           else some (members.erase ws)) := by
  cases hf : lookupRoom s r with
  | none =>
      unfold leaveRoom
      rw [hf]
      dsimp only
      exact hf
  | some members =>
      have hf2 : ∃ q, s.rooms.find? (fun p => p.1 = r) = some q ∧
          q.2 = members := by
        unfold lookupRoom at hf
        exact Option.map_eq_some'.mp hf
      obtain ⟨q, hq, hq2⟩ := hf2
      have hqkey : q.1 = r := by simpa using List.find?_some hq
      unfold leaveRoom
      rw [hf]
      dsimp only
      by_cases he : members.erase ws = []
      · rw [if_pos he]
        unfold lookupRoom
        dsimp only
        rw [find?_key_filter_self]
        simp [he]
      · rw [if_neg he]
        unfold lookupRoom
        dsimp only
        rw [find?_key_map_update s.rooms r (fun _ => members.erase ws) r]
        rw [hq]
        simp [hqkey, he]

lemma lookupRoom_leaveRoom_other (ws : Nat) (r r' : String) (s : RelayState)
    (h : r' ≠ r) :
    lookupRoom (leaveRoom ws r s) r' = lookupRoom s r' := by
  cases hf : lookupRoom s r with
  | none =>
      unfold leaveRoom
      rw [hf]
      dsimp only
      rfl
  | some members =>
      unfold leaveRoom
      rw [hf]
      dsimp only
      by_cases he : members.erase ws = []
      · rw [if_pos he]
        unfold lookupRoom
        dsimp only
        rw [find?_key_filter_other s.rooms r r' h]
      · rw [if_neg he]
        unfold lookupRoom
        dsimp only
        rw [find?_key_map_update s.rooms r (fun _ => members.erase ws) r']
        cases hq : s.rooms.find? (fun p => p.1 = r') with
        | none => rfl
        | some q =>
            have hqkey : q.1 = r' := by simpa using List.find?_some hq
            have hqr : ¬ q.1 = r := by
              rw [hqkey]
              exact h
            simp [hqr]

lemma lookupRoom_addToRoom_other (r : String) (ws : Nat) (r' : String)
    (s : RelayState) (h : r' ≠ r) :
    lookupRoom (addToRoom r ws s) r' = lookupRoom s r' := by
  unfold addToRoom
  cases hf : lookupRoom s r with
  | none =>
      dsimp only
      unfold lookupRoom
      dsimp only
      rw [List.find?_append]
      cases hq : s.rooms.find? (fun p => p.1 = r') with
      | none =>
          rw [List.find?_cons_of_neg _ (by simpa using Ne.symm h)]
          rfl
      | some q => rfl
  | some members =>
      dsimp only
      by_cases hm : ws ∈ members
      · rw [if_pos hm]
      · rw [if_neg hm]
        unfold lookupRoom
        dsimp only
        rw [find?_key_map_update s.rooms r (fun ms => ms ++ [ws]) r']
        cases hq : s.rooms.find? (fun p => p.1 = r') with
        | none => rfl
        | some q =>
            have hqkey : q.1 = r' := by simpa using List.find?_some hq
            have hqr : ¬ q.1 = r := by
              rw [hqkey]
              exact h
            simp [hqr]

lemma lookupRoom_addToRoom_self (r : String) (ws : Nat) (s : RelayState) :
    ∃ ms, lookupRoom (addToRoom r ws s) r = some ms ∧ ws ∈ ms := by
  unfold addToRoom
  cases hf : lookupRoom s r with
  | none =>
      have hf2 : s.rooms.find? (fun p => p.1 = r) = none := by
        unfold lookupRoom at hf
        simpa [Option.map_eq_none'] using hf
      refine ⟨[ws], ?_, by simp⟩
      dsimp only
      unfold lookupRoom
      dsimp only
      rw [List.find?_append, hf2]
      simp
  | some members =>
      have hf2 : ∃ q, s.rooms.find? (fun p => p.1 = r) = some q ∧
          q.2 = members := by
        unfold lookupRoom at hf
        exact Option.map_eq_some'.mp hf
      obtain ⟨q, hq, hq2⟩ := hf2
      have hqkey : q.1 = r := by simpa using List.find?_some hq
      dsimp only
      by_cases hm : ws ∈ members
      · rw [if_pos hm]
        exact ⟨members, hf, hm⟩
      · rw [if_neg hm]
        refine ⟨members ++ [ws], ?_, by simp⟩
        unfold lookupRoom
        dsimp only
        rw [find?_key_map_update s.rooms r (fun ms => ms ++ [ws]) r]
        rw [hq]
        simp [hqkey, hq2]

/-- Claim C5 as amended: when a connection bound to room `oldRoom` joins a
different room `newRoom`, the implicit leave of `oldRoom` is registry-only:
the connection is removed from `oldRoom`'s member set (the room entry being
deleted when that set empties), the connection is rebound (its `clients`
record afterwards carries `newRoom` and the new user identity) and added to
`newRoom`'s member set, but no `left` side effects are emitted — the only
broadcast message of the whole operation is the `newRoom` join presence (so
no `left` presence frame reaches `oldRoom`'s remaining members), and every
store row added by the operation belongs to `newRoom` (no `left` row is
persisted for `oldRoom`). -/
theorem join_implicit_leave_registry_only (s : RelayState) (ws now : Nat)
    (m : InMsg) (info : ClientInfo) (storeOk : Bool)
    (oldRoom newRoom newUser : String)
    (hm : m.type = joinKind)
    (hr : m.roomId = some newRoom) (hu : m.senderId = some newUser)
    (hnr : newRoom ≠ "") (hnu : newUser ≠ "")
    (hc : lookupClient s ws = some info)
    (hold : info.roomId = some oldRoom) (holdne : oldRoom ≠ "")
    (hdiff : oldRoom ≠ newRoom) :
    lookupClient (onMessage storeOk now ws m s).1 ws =
      some { info with roomId := some newRoom, userId := some newUser } ∧
    (∀ members, lookupRoom s oldRoom = some members →
      lookupRoom (onMessage storeOk now ws m s).1 oldRoom =
        (if members.erase ws = [] then none
         else some (members.erase ws))) ∧
    (∃ ms, lookupRoom (onMessage storeOk now ws m s).1 newRoom = some ms ∧
      ws ∈ ms) ∧
    (∀ p ∈ (onMessage storeOk now ws m s).2, ∀ mm : Msg,
      p.2 = Frame.msg mm → mm = joinPresence newRoom newUser now) ∧
    (∀ mm ∈ (onMessage storeOk now ws m s).1.store,
      mm ∈ s.store ∨ mm = joinPresence newRoom newUser now) := by
  have hdisp : handleMessage storeOk now ws m s =
      handleJoin storeOk now ws m s := by
    simp [handleMessage, hm, joinKind]
  have hb : truthyS info.roomId = true := by
    rw [hold]
    simp [truthyS, holdne]
  have hsh := join_shape hr hu hnr hnu hc hb storeOk now
  dsimp only at hsh
  unfold onMessage
  rw [hdisp, hsh]
  cases storeOk
  case false =>
    rw [if_neg Bool.false_ne_true]
    dsimp only
    rw [if_pos rfl]
    generalize habig : addToRoom newRoom ws (setClient ws
      { info with roomId := some newRoom, userId := some newUser }
      (leaveRoom ws (jsShow info.roomId) s)) = t
    have hstore : t.store = s.store := by
      rw [← habig, addToRoom_store, setClient_store, leaveRoom_store]
    have hlk : lookupClient t ws =
        some { info with roomId := some newRoom, userId := some newUser } := by
      rw [← habig, lookupClient_congr (addToRoom_clients newRoom ws _) ws]
      exact lookupClient_setClient ws _ _
    have hjs : jsShow info.roomId = oldRoom := by
      rw [hold]
      rfl
    have hroomOld : ∀ members, lookupRoom s oldRoom = some members →
        lookupRoom t oldRoom =
          (if members.erase ws = [] then none
           else some (members.erase ws)) := by
      intro members hms
      rw [← habig, lookupRoom_addToRoom_other newRoom ws oldRoom _ hdiff,
        lookupRoom_congr (setClient_rooms ws _ _) oldRoom, hjs,
        lookupRoom_leaveRoom_self ws oldRoom s, hms]
    have hroomNew : ∃ ms, lookupRoom t newRoom = some ms ∧ ws ∈ ms := by
      rw [← habig]
      exact lookupRoom_addToRoom_self newRoom ws _
    refine ⟨hlk, hroomOld, hroomNew, ?_, ?_⟩
    · intro p hp mm hpm
      simp only [List.mem_append] at hp
      rcases hp with ((hp1 | hp1) | hp1) | hp1
      · simp only [List.mem_singleton] at hp1
        subst hp1
        simp at hpm
      · split at hp1
        · simp at hp1
        · simp only [List.mem_singleton] at hp1
          subst hp1
          simp at hpm
      · have hbe := broadcast_frames hp1
        rw [hpm] at hbe
        injection hbe with hbe2
      · unfold sendError at hp1
        split at hp1
        · simp only [List.mem_singleton] at hp1
          subst hp1
          simp at hpm
        · simp at hp1
    · intro mm hmm
      exact Or.inl (hstore ▸ hmm)
  case true =>
    rw [if_pos rfl]
    dsimp only
    rw [if_neg Bool.false_ne_true]
    generalize habig : addToRoom newRoom ws (setClient ws
      { info with roomId := some newRoom, userId := some newUser }
      (leaveRoom ws (jsShow info.roomId) s)) = t
    have hstore : t.store = s.store := by
      rw [← habig, addToRoom_store, setClient_store, leaveRoom_store]
    have hlk : lookupClient t ws =
        some { info with roomId := some newRoom, userId := some newUser } := by
      rw [← habig, lookupClient_congr (addToRoom_clients newRoom ws _) ws]
      exact lookupClient_setClient ws _ _
    have hjs : jsShow info.roomId = oldRoom := by
      rw [hold]
      rfl
    have hroomOld : ∀ members, lookupRoom s oldRoom = some members →
        lookupRoom t oldRoom =
          (if members.erase ws = [] then none
           else some (members.erase ws)) := by
      intro members hms
      rw [← habig, lookupRoom_addToRoom_other newRoom ws oldRoom _ hdiff,
        lookupRoom_congr (setClient_rooms ws _ _) oldRoom, hjs,
        lookupRoom_leaveRoom_self ws oldRoom s, hms]
    have hroomNew : ∃ ms, lookupRoom t newRoom = some ms ∧ ws ∈ ms := by
      rw [← habig]
      exact lookupRoom_addToRoom_self newRoom ws _
    refine ⟨(lookupClient_congr rfl ws).trans hlk, hroomOld, hroomNew, ?_, ?_⟩
    · intro p hp mm hpm
      simp only [List.mem_append] at hp
      rcases hp with (hp1 | hp1) | hp1
      · simp only [List.mem_singleton] at hp1
        subst hp1
        simp at hpm
      · split at hp1
        · simp at hp1
        · simp only [List.mem_singleton] at hp1
          subst hp1
          simp at hpm
      · have hbe := broadcast_frames hp1
        rw [hpm] at hbe
        injection hbe with hbe2
    · intro mm hmm
      rcases List.mem_append.mp hmm with h1 | h1
      · exact Or.inl (hstore ▸ h1)
      · simp only [List.mem_singleton] at h1
        exact Or.inr h1

end Chat

namespace Chat

/-- Witness for the amended C5: in the two-member room of `esAB`,
connection 1 (bound to `r1`) joins `r2`. -/
theorem join_implicit_leave_witness :
    (lookupClient sAB 1 = some infoAB1) ∧
    (lookupClient (onMessage true 3 1 joinR2u1 sAB).1 1 =
       some { infoAB1 with roomId := some r2, userId := some u1 } ∧
     (∀ members, lookupRoom sAB r1 = some members →
       lookupRoom (onMessage true 3 1 joinR2u1 sAB).1 r1 =
         (if members.erase 1 = [] then none
          else some (members.erase 1))) ∧
     (∃ ms, lookupRoom (onMessage true 3 1 joinR2u1 sAB).1 r2 = some ms ∧
       (1 : Nat) ∈ ms) ∧
     (∀ p ∈ (onMessage true 3 1 joinR2u1 sAB).2, ∀ mm : Msg,
       p.2 = Frame.msg mm → mm = joinPresence r2 u1 3) ∧
     (∀ mm ∈ (onMessage true 3 1 joinR2u1 sAB).1.store,
       mm ∈ sAB.store ∨ mm = joinPresence r2 u1 3)) :=
  ⟨by decide,
   join_implicit_leave_registry_only sAB 1 3 joinR2u1 infoAB1 true r1 r2 u1
     (by decide) (by decide) (by decide) (by decide) (by decide) (by decide)
     (by decide) (by decide) (by decide)⟩

end Chat
